import Mathlib

/-!
# SpotifySuite — verification of the playlist/track engine

A shallow embedding of the core of the SpotifySuite command-line toolkit
(`lib/spotify.js`, `lib/csvProcessor.js`, the CSV batch-processor CLI and the
CSV export module), together with theorems about its specified behaviour.

External collaborators (the HTTP client, `Date` parsing, locale formatting,
`localeCompare`, the filesystem) are modelled as explicit pure parameters;
everything else is translated function-by-function from the JavaScript source.
JS strings are `String`, JS numbers appearing as integers are `Nat`/`Int`,
absent JSON fields are `Option`, thrown errors are `Except.error`.
-/

namespace SpotifySuite

/-- JS `a || dflt` on an optional string field: `null`, `undefined` and the
empty string are all falsy and fall back to the default. -/
def jsOrStr (a : Option String) (dflt : String) : String :=
  match a with
  | some s => if s = "" then dflt else s
  | none => dflt

/-- JS truthiness of an optional string (`if (s) ...`). -/
def jsTruthyStr (a : Option String) : Bool :=
  match a with
  | some s => decide (s ≠ "")
  | none => false

/-- JS truthiness of an optional integer (`if (n) ...`): `null` and `0` are
falsy. -/
def jsTruthyInt (a : Option Int) : Bool :=
  match a with
  | some y => decide (y ≠ 0)
  | none => false

/-- Value of a maximal decimal-digit run; `none` when the run is empty
(JS `parseInt` returns `NaN` when no digit follows). -/
def decValue (cs : List Char) : Option Nat :=
  match cs.takeWhile Char.isDigit with
  | [] => none
  | ds => some (ds.foldl (fun a c => a * 10 + (c.toNat - '0'.toNat)) 0)

def isHexDigitChar (c : Char) : Bool :=
  c.isDigit || ('a' ≤ c && c ≤ 'f') || ('A' ≤ c && c ≤ 'F')

def hexDigitVal (c : Char) : Nat :=
  if c.isDigit then c.toNat - '0'.toNat
  else if 'a' ≤ c && c ≤ 'f' then c.toNat - 'a'.toNat + 10
  else c.toNat - 'A'.toNat + 10

/-- Value of a maximal hexadecimal-digit run; `none` when empty. -/
def hexValue (cs : List Char) : Option Nat :=
  match cs.takeWhile isHexDigitChar with
  | [] => none
  | ds => some (ds.foldl (fun a c => a * 16 + hexDigitVal c) 0)

/-- Magnitude part of JS `parseInt(s)` with automatic radix: a `0x`/`0X`
prefix switches to hexadecimal, otherwise decimal; `none` models `NaN`. -/
def jsParseNat (cs : List Char) : Option Nat :=
  match cs with
  | '0' :: 'x' :: rest => hexValue rest
  | '0' :: 'X' :: rest => hexValue rest
  | _ => decValue cs

/-- JS `parseInt(s)` (as applied to the CSV `Release Year` field): skip
leading whitespace, optional sign, maximal digit run; `none` models `NaN`. -/
def jsParseInt (s : String) : Option Int :=
  match s.data.dropWhile Char.isWhitespace with
  | '-' :: rest => (jsParseNat rest).map (fun n => -(n : Int))
  | '+' :: rest => (jsParseNat rest).map (fun n => (n : Int))
  | rest => (jsParseNat rest).map (fun n => (n : Int))

/-- JS `haystack.includes(needle)` on character lists: some suffix of the
haystack starts with the needle (the empty needle is always contained). -/
def listContains (needle : List Char) : List Char → Bool
  | [] => needle.isEmpty
  | c :: rest => needle.isPrefixOf (c :: rest) || listContains needle rest

/-- JS `s.toLowerCase()`: character-wise lowercasing (executable model of
`String.toLower`, which maps `Char.toLower` over the characters). -/
def lowerStr (s : String) : String :=
  String.mk (s.data.map Char.toLower)

/-- JS `s.trim()`: strip leading and trailing whitespace. -/
def jsTrim (s : String) : String :=
  String.mk (((s.data.dropWhile Char.isWhitespace).reverse.dropWhile Char.isWhitespace).reverse)

/-- JS `haystack.toLowerCase().includes(needle.toLowerCase())`. -/
def containsCI (haystack needle : String) : Bool :=
  listContains (lowerStr needle).data (lowerStr haystack).data

/-! ## Remote API response shapes -/

/-- An artist object inside a track response; the `name` field may be absent. -/
structure SpArtist where
  name : Option String
deriving DecidableEq

/-- An album object inside a track response. -/
structure SpAlbum where
  name : Option String
  album_type : Option String
  release_date : Option String
  id : Option String
deriving DecidableEq

/-- A track object as returned by the search and playlist-tracks endpoints;
every field may be absent in the raw JSON. -/
structure SpTrack where
  id : Option String
  name : Option String
  artists : Option (List SpArtist)
  album : Option SpAlbum
  duration_ms : Option Nat
  popularity : Option Nat
deriving DecidableEq

/-- A derived album candidate (`formatAlbumInformation` output shape). -/
structure AlbumCandidate where
  trackName : String
  albumName : String
  releaseDate : String
  releaseYear : Int
  albumType : String
  trackArtists : String
  albumId : String
  trackId : String
deriving DecidableEq

/-- The external collaborators of the engine, as pure functions:
* `remote q` — the track list of `GET /search?q=q&type=track`, or a thrown
  error (network/API failure);
* `getYear s` — `new Date(s).getFullYear()` when `new Date(s)` is a valid
  date, `none` when the date is `NaN`;
* `dateDisplay s` — `toLocaleDateString` of a valid date string;
* `lc a b` — `a.localeCompare(b)`;
* `fmtPop n` — `n.toLocaleString(locale, options)` for the popularity field. -/
structure Env where
  remote : String → Except String (List SpTrack)
  getYear : String → Option Int
  dateDisplay : String → String
  lc : String → String → Int
  fmtPop : Nat → String

/-! ## Album Finder (`searchTracksByNameAndArtist`, `formatAlbumInformation`,
`sortAlbumsByReleaseYear`, `getTrackAlbumInformation`,
`findEarliestAlbumBeforeYear`) -/

/-- The local re-filter of `searchTracksByNameAndArtist`: the track's name is
truthy and contains the queried name (case-insensitive), and some artist's
name is truthy and contains the queried artist. -/
def trackMatches (trackName artistName : String) (t : SpTrack) : Bool :=
  (match t.name with
   | some n => decide (n ≠ "") && containsCI n trackName
   | none => false) &&
  (match t.artists with
   | some arts => arts.any (fun a =>
      match a.name with
      | some an => decide (an ≠ "") && containsCI an artistName
      | none => false)
   | none => false)

/-- `searchTracksByNameAndArtist`: remote search with the exact-field query
syntax, then the permissive local re-filter. -/
def searchTracksByNameAndArtist (env : Env) (trackName artistName : String) :
    Except String (List SpTrack) :=
  match env.remote ("track:\"" ++ trackName ++ "\" artist:\"" ++ artistName ++ "\"") with
  | .error e => .error e
  | .ok tracks =>
    if tracks.isEmpty then .ok []
    else .ok (tracks.filter (trackMatches trackName artistName))

/-- `s.charAt(0).toUpperCase() + s.slice(1)`. -/
def capitalizeFirst (s : String) : String :=
  match s.data with
  | [] => ""
  | c :: rest => String.mk (c.toUpper :: rest)

/-- `artists.map(artist => artist.name).join(', ')`; JS `join` renders an
absent name as the empty string. -/
def joinArtistNames (arts : List SpArtist) : String :=
  String.intercalate ", " (arts.map (fun a => a.name.getD ""))

/-- `formatAlbumInformation` applied to one track. -/
def formatAlbumInfo (env : Env) (t : SpTrack) : AlbumCandidate :=
  let rd := t.album.bind (·.release_date)
  let displayAndYear : String × Int :=
    if jsTruthyStr rd then
      match env.getYear (rd.getD "") with
      | some y => (env.dateDisplay (rd.getD ""), y)
      | none => ("Unknown", 0)
    else ("Unknown", 0)
  { trackName := jsOrStr t.name "Unknown Track"
    albumName := jsOrStr (t.album.bind (·.name)) "Unknown Album"
    releaseDate := displayAndYear.1
    releaseYear := displayAndYear.2
    albumType := capitalizeFirst (jsOrStr (t.album.bind (·.album_type)) "Unknown")
    trackArtists :=
      match t.artists with
      | some arts => joinArtistNames arts
      | none => "Unknown Artist"
    albumId := jsOrStr (t.album.bind (·.id)) ""
    trackId := jsOrStr t.id "" }

def formatAlbumInformation (env : Env) (tracks : List SpTrack) : List AlbumCandidate :=
  tracks.map (formatAlbumInfo env)

/-- The sort comparator of `sortAlbumsByReleaseYear` as a "may precede"
boolean: `a` may stay before `b` iff the JS comparator value
(`a.releaseYear - b.releaseYear`, ties broken by
`a.albumName.localeCompare(b.albumName)`) is `≤ 0`. -/
def albumLe (lc : String → String → Int) (a b : AlbumCandidate) : Bool :=
  if a.releaseYear = b.releaseYear then decide (lc a.albumName b.albumName ≤ 0)
  else decide (a.releaseYear < b.releaseYear)

/-- `sortAlbumsByReleaseYear`: `Array.prototype.sort` is required (ES2019+) to
be stable and to sort w.r.t. a consistent comparator, which characterises its
output uniquely; it is embedded as the stable `List.mergeSort`. -/
def sortAlbumsByReleaseYear (lc : String → String → Int)
    (albumInfo : List AlbumCandidate) : List AlbumCandidate :=
  albumInfo.mergeSort (albumLe lc)

/-- `getTrackAlbumInformation`: search, format, optional type filter
(checked with JS truthiness, so the empty string disables it), optional
before-year filter (JS truthiness again, so `beforeYear = 0` disables it),
then the chronological sort. -/
def getTrackAlbumInformation (env : Env) (trackName artistName : String)
    (albumTypeFilter : Option String) (beforeYear : Option Int) :
    Except String (List AlbumCandidate) :=
  match searchTracksByNameAndArtist env trackName artistName with
  | .error e => .error e
  | .ok tracks =>
    let albumInfo := formatAlbumInformation env tracks
    let albumInfo :=
      if jsTruthyStr albumTypeFilter then
        albumInfo.filter (fun info =>
          lowerStr info.albumType == lowerStr (albumTypeFilter.getD ""))
      else albumInfo
    let albumInfo :=
      if jsTruthyInt beforeYear then
        albumInfo.filter (fun info =>
          decide (0 < info.releaseYear) && decide (info.releaseYear < beforeYear.getD 0))
      else albumInfo
    .ok (sortAlbumsByReleaseYear env.lc albumInfo)

/-- `findEarliestAlbumBeforeYear`: regular albums only, before the given
year, earliest first; `albumInfo.length > 0 ? albumInfo[0] : null`. -/
def findEarliestAlbumBeforeYear (env : Env) (trackName artistName : String)
    (beforeYear : Int) : Except String (Option AlbumCandidate) :=
  match getTrackAlbumInformation env trackName artistName (some "album") (some beforeYear) with
  | .error e => .error e
  | .ok albumInfo => .ok albumInfo.head?

/-! ## CSV batch enrichment (`createEnhancedRecord`, `processTrackRecord`,
`processAllRecords`) -/

/-- One input CSV row (semicolon-separated, parsed with `columns: true`): the
four required columns, always strings. -/
structure InputRecord where
  trackName : String
  artistName : String
  releaseYear : String
  spotifyTrackId : String
deriving DecidableEq

/-- An output row: the four input columns plus the four `New ...` columns. -/
structure EnhancedRecord where
  trackName : String
  artistName : String
  releaseYear : String
  spotifyTrackId : String
  newTrackName : String
  newAlbumName : String
  newAlbumReleaseYear : String
  newTrackSpotifyId : String
deriving DecidableEq

/-- `createEnhancedRecord`: copy the original columns, then fill the four new
columns from the album candidate, or with empty strings when none. -/
def createEnhancedRecord (inputRecord : InputRecord)
    (albumInfo : Option AlbumCandidate) : EnhancedRecord :=
  { trackName := inputRecord.trackName
    artistName := inputRecord.artistName
    releaseYear := inputRecord.releaseYear
    spotifyTrackId := inputRecord.spotifyTrackId
    newTrackName := match albumInfo with | some a => a.trackName | none => ""
    newAlbumName := match albumInfo with | some a => a.albumName | none => ""
    newAlbumReleaseYear := match albumInfo with | some a => toString a.releaseYear | none => ""
    newTrackSpotifyId := match albumInfo with | some a => a.trackId | none => "" }

/-- The four original columns of an enhanced row. -/
def restrictRecord (e : EnhancedRecord) : InputRecord :=
  { trackName := e.trackName
    artistName := e.artistName
    releaseYear := e.releaseYear
    spotifyTrackId := e.spotifyTrackId }

/-- `processTrackRecord`: validate (JS-falsy track/artist name, `NaN` year),
otherwise call the earliest-before-year search with the whole body inside a
`try`/`catch` that downgrades any thrown error to an empty enrichment. Also
returns the number of remote searches issued by the row (0 or 1). -/
def processTrackRecord (env : Env) (record : InputRecord) : EnhancedRecord × Nat :=
  if record.trackName = "" ∨ record.artistName = "" then
    (createEnhancedRecord record none, 0)
  else
    match jsParseInt record.releaseYear with
    | none => (createEnhancedRecord record none, 0)
    | some releaseYear =>
      match findEarliestAlbumBeforeYear env record.trackName record.artistName releaseYear with
      | .ok albumInfo => (createEnhancedRecord record albumInfo, 1)
      | .error _ => (createEnhancedRecord record none, 1)

/-- `processAllRecords`: every row in order; the progress counters and the
inter-row delay do not affect the emitted rows. -/
def processAllRecords (env : Env) (records : List InputRecord) : List EnhancedRecord :=
  records.map (fun r => (processTrackRecord env r).1)

/-! ## Playlist Resolver (`searchPlaylistsByName`, `extractPlaylistIdFromUrl`) -/

structure PlaylistOwner where
  id : Option String
deriving DecidableEq

/-- A playlist object from the search response; `name` and `owner` may be
absent. -/
structure PlaylistObj where
  name : Option String
  owner : Option PlaylistOwner
deriving DecidableEq

/-- `playlist.name && playlist.name.toLowerCase() === playlistName.toLowerCase()`. -/
def playlistNameMatches (playlistName : String) (p : PlaylistObj) : Bool :=
  match p.name with
  | some n => decide (n ≠ "") && (lowerStr n == lowerStr playlistName)
  | none => false

/-- `playlist.owner && playlist.owner.id && playlist.owner.id.toLowerCase() === owner.toLowerCase()`. -/
def playlistOwnerMatches (owner : String) (p : PlaylistObj) : Bool :=
  match p.owner with
  | some ow =>
    match ow.id with
    | some oid => decide (oid ≠ "") && (lowerStr oid == lowerStr owner)
    | none => false
  | none => false

/-- `searchPlaylistsByName`: `items` is the remote search response
(`response.data.playlists.items`, possibly containing `null` entries); keep
the non-null entries whose name matches exactly (case-insensitively), then,
when an owner was supplied (JS truthiness), those whose owner id matches
exactly (case-insensitively). -/
def searchPlaylistsByName (items : List (Option PlaylistObj)) (playlistName : String)
    (owner : Option String) : List PlaylistObj :=
  let exactMatches := items.filterMap (fun itm =>
    match itm with
    | some p => if playlistNameMatches playlistName p then some p else none
    | none => none)
  if jsTruthyStr owner then
    exactMatches.filter (playlistOwnerMatches (owner.getD ""))
  else exactMatches

/-- The capture class `[a-zA-Z0-9]` of the playlist-URL regexes. -/
def isIdChar (c : Char) : Bool := c.isAlphanum

/-- Leftmost match of the regex `<pre>([a-zA-Z0-9]+)` for a literal pattern
`pre`: scan the start positions left to right and, at the first position
where the literal is followed by at least one accepted character, capture the
maximal accepted run. -/
def scanCapture (pre : List Char) (p : Char → Bool) : List Char → Option (List Char)
  | [] => none
  | c :: rest =>
    if pre.isPrefixOf (c :: rest) then
      match (c :: rest).drop pre.length with
      | a :: after => if p a then some (a :: after.takeWhile p) else scanCapture pre p rest
      | [] => scanCapture pre p rest
    else scanCapture pre p rest

def httpPattern : List Char := "open.spotify.com/playlist/".data

def uriPattern : List Char := "spotify:playlist:".data

def invalidUrlMessage : String :=
  "Invalid Spotify playlist URL format. Expected: https://open.spotify.com/playlist/ID or spotify:playlist:ID"

/-- `extractPlaylistIdFromUrl`: `httpMatch?.[1] || uriMatch?.[1]`, throwing
when neither regex matches. -/
def extractPlaylistIdFromUrl (url : String) : Except String String :=
  match scanCapture httpPattern isIdChar url.data with
  | some cs => .ok (String.mk cs)
  | none =>
    match scanCapture uriPattern isIdChar url.data with
    | some cs => .ok (String.mk cs)
    | none => .error invalidUrlMessage

/-! ## Track Collector (`getPlaylistTracks`) -/

/-- One page of the paginated tracks endpoint: the authoritative `total` and
the `items` array; an item may be `null`, and its `track` may be `null`. -/
structure TracksPage where
  total : Nat
  items : List (Option (Option SpTrack))

/-- `items.filter(item => item && item.track && item.track.id).map(item => item.track)`. -/
def pageValidTracks (page : TracksPage) : List SpTrack :=
  page.items.filterMap (fun itm =>
    match itm with
    | some (some t) => if jsTruthyStr t.id then some t else none
    | _ => none)

/-- The `while (offset < total)` part of the pagination loop, starting at
`offset` (page size 50); `fetchPage o` is the response of the request issued
at offset `o`. Returns the collected valid tracks and the offsets requested. -/
def collectRemainingPages (fetchPage : Nat → TracksPage) (total : Nat) (offset : Nat) :
    List SpTrack × List Nat :=
  if _h : offset < total then
    let page := fetchPage offset
    let tail := collectRemainingPages fetchPage total (offset + 50)
    (pageValidTracks page ++ tail.1, offset :: tail.2)
  else ([], [])
termination_by total - offset
decreasing_by omega

/-- `getPlaylistTracks`: do/while pagination with page size 50; the first
response (offset 0) establishes the authoritative total. Returns the
flattened valid tracks and the list of offsets requested, in order. -/
def getPlaylistTracks (fetchPage : Nat → TracksPage) : List SpTrack × List Nat :=
  let firstPage := fetchPage 0
  let total := firstPage.total
  let tail := collectRemainingPages fetchPage total 50
  (pageValidTracks firstPage ++ tail.1, 0 :: tail.2)

/-! ## Playlist Writer (`addTracksToPlaylist`) -/

/-- A candidate track ID from the CSV: a JS string, or some non-string value
(whose truthiness is irrelevant — the `typeof` check rejects it). -/
inductive TrackIdValue where
  | str (s : String)
  | nonString (truthy : Bool)
deriving DecidableEq

/-- The structural validity filter
`id && typeof id === 'string' && id.trim() !== ''`. -/
def validTrackId (idv : TrackIdValue) : Option String :=
  match idv with
  | .str s => if s ≠ "" ∧ jsTrim s ≠ "" then some s else none
  | .nonString _ => none

structure BatchAddResult where
  successful : Nat
  failed : Nat
  skipped : Nat
deriving DecidableEq

/-- `slice(i, i + 100)` chunking of the valid IDs. -/
def chunksOf100 : List String → List (List String)
  | [] => []
  | x :: rest => (x :: rest).take 100 :: chunksOf100 ((x :: rest).drop 100)
termination_by l => l.length
decreasing_by simp; omega

/-- The chunk-submission loop: `postChunk k` tells whether the `k`-th POST of
URIs succeeds; a rejected chunk counts its whole size toward `failed`.
Returns (successful, failed). -/
def addChunksLoop (postChunk : Nat → Bool) : List (List String) → Nat → Nat × Nat
  | [], _ => (0, 0)
  | batch :: batches, k =>
    let tail := addChunksLoop postChunk batches (k + 1)
    if postChunk k then (batch.length + tail.1, tail.2)
    else (tail.1, batch.length + tail.2)

/-- `addTracksToPlaylist`: partition into structurally valid and skipped IDs,
early return when nothing is valid, otherwise submit 100-chunks. -/
def addTracksToPlaylist (postChunk : Nat → Bool) (trackIds : List TrackIdValue) :
    BatchAddResult :=
  let validTrackIds := trackIds.filterMap validTrackId
  let skippedCount := trackIds.length - validTrackIds.length
  if validTrackIds.length = 0 then
    { successful := 0, failed := trackIds.length, skipped := skippedCount }
  else
    let sf := addChunksLoop postChunk (chunksOf100 validTrackIds) 0
    { successful := sf.1, failed := sf.2, skipped := skippedCount }

/-! ## CSV export filename generation (`sanitizeFilename`,
`generateUniqueFilename`) -/

/-- The character class `[<>:"/\\|?*]` of the first `replace`. -/
def isInvalidFileChar (c : Char) : Bool :=
  c == '<' || c == '>' || c == ':' || c == '"' || c == '/' || c == '\\' ||
  c == '|' || c == '?' || c == '*'

/-- Worker for `collapseRuns`; the flag records whether the previous
character was part of a collapsed run. -/
def collapseRunsGo (p : Char → Bool) (r : Char) : Bool → List Char → List Char
  | _, [] => []
  | inRun, c :: rest =>
    if p c then (if inRun then collapseRunsGo p r true rest else r :: collapseRunsGo p r true rest)
    else c :: collapseRunsGo p r false rest

/-- Replace every maximal run of characters satisfying `p` by the single
character `r` (the effect of `replace(/X+/g, r)` for a class `X`). -/
def collapseRuns (p : Char → Bool) (r : Char) (cs : List Char) : List Char :=
  collapseRunsGo p r false cs

/-- `sanitizeFilename`: replace illegal characters by `_`, collapse
whitespace runs to `_`, collapse multiple `_`, strip leading/trailing `_`,
cap at 100 characters. -/
def sanitizeFilename (filename : String) : String :=
  let cs := filename.data.map (fun c => if isInvalidFileChar c then '_' else c)
  let cs := collapseRuns Char.isWhitespace '_' cs
  let cs := collapseRuns (· == '_') '_' cs
  let cs := cs.dropWhile (· == '_')
  let cs := (cs.reverse.dropWhile (· == '_')).reverse
  String.mk (cs.take 100)

/-- The `while (fs.existsSync(fullPath))` loop of `generateUniqueFilename`,
trying `base_counter.ext`, `base_(counter+1).ext`, …; `fuel` bounds the
search (the JS loop terminates on any finite directory, and
`existing.length + 1` attempts always suffice). -/
def uniqueNameLoop (existing : List String) (sanitizedBase ext : String) :
    Nat → Nat → Option String
  | 0, _ => none
  | fuel + 1, counter =>
    let filename := sanitizedBase ++ "_" ++ toString counter ++ ext
    if filename ∈ existing then uniqueNameLoop existing sanitizedBase ext fuel (counter + 1)
    else some filename

/-- `generateUniqueFilename`; the fixed output directory is abstracted away:
`existing` lists the filenames for which `fs.existsSync(path.join(dir, ·))`
holds. -/
def generateUniqueFilename (existing : List String) (baseFilename ext : String) :
    Option String :=
  let sanitizedBase := sanitizeFilename baseFilename
  let filename := sanitizedBase ++ ext
  if filename ∈ existing then
    uniqueNameLoop existing sanitizedBase ext (existing.length + 1) 1
  else some filename

/-! ## Export row formatting (`formatTracksForCsv`) -/

/-- One export CSV row. -/
structure CsvTrackRow where
  trackName : String
  artistName : String
  albumName : String
  albumYear : String
  trackDuration : String
  trackPopularity : String
  spotifyTrackId : String
deriving DecidableEq

/-- JS `s.padStart(2, '0')`. -/
def padStartTwoZeros (s : String) : String :=
  String.mk (List.replicate (2 - s.length) '0' ++ s.data)

/-- `formatTracksForCsv` applied to one track. -/
def formatTrackForCsv (env : Env) (track : SpTrack) : CsvTrackRow :=
  let rd := track.album.bind (·.release_date)
  { trackName := jsOrStr track.name "Unknown Track"
    artistName :=
      match track.artists with
      | some arts => if arts.length > 0 then joinArtistNames arts else "Unknown Artist"
      | none => "Unknown Artist"
    albumName := jsOrStr (track.album.bind (·.name)) "Unknown Album"
    albumYear :=
      if jsTruthyStr rd then
        match env.getYear (rd.getD "") with
        | some y => toString y
        | none => ""
      else ""
    trackDuration :=
      match track.duration_ms with
      | some ms =>
        if ms ≠ 0 then
          toString (ms / 1000 / 60) ++ ":" ++ padStartTwoZeros (toString (ms / 1000 % 60))
        else ""
      | none => ""
    trackPopularity :=
      match track.popularity with
      | some p => env.fmtPop p
      | none => ""
    spotifyTrackId := jsOrStr track.id "" }

def formatTracksForCsv (env : Env) (tracks : List SpTrack) : List CsvTrackRow :=
  tracks.map (formatTrackForCsv env)

/-- The spec-side duration format, following the spec's words: minutes and
seconds of `⌊ms / 1000⌋`, seconds zero-padded to two digits. -/
def specDurationMinSec (ms : Nat) : String :=
  toString (ms / 1000 / 60) ++ ":" ++ padStartTwoZeros (toString (ms / 1000 % 60))

/-! ## Concrete sample data for counterexamples and witnesses -/

/-- A stub environment whose remote search throws. -/
def stubEnv : Env where
  remote := fun _ => .error "boom"
  getYear := fun _ => none
  dateDisplay := fun _ => ""
  lc := fun _ _ => 0
  fmtPop := fun _ => ""

/-- A concrete consistent comparator for witnesses: `localeCompare`
instantiated with plain code-point order. -/
def lcCodePoint (a b : String) : Int :=
  if a < b then -1 else if b < a then 1 else 0

/-- A sample album candidate for witnesses. -/
def demoAlbum (name : String) (year : Int) : AlbumCandidate :=
  { trackName := "t", albumName := name, releaseDate := "d", releaseYear := year,
    albumType := "Album", trackArtists := "a", albumId := "", trackId := "" }

def demoAlbums : List AlbumCandidate :=
  [demoAlbum "B" 1970, demoAlbum "A" 1965, demoAlbum "A" 1970]

/-- One concrete search result: the queried track on a 1965 regular album. -/
def demoTrack1965 : SpTrack :=
  { id := some "tid1"
    name := some "a"
    artists := some [{ name := some "b" }]
    album := some { name := some "Old Album", album_type := some "album",
                    release_date := some "1965-01-01", id := some "alb1" }
    duration_ms := some 180000
    popularity := some 50 }

/-- The environment whose remote search returns exactly `demoTrack1965`. -/
def demoEnv : Env where
  remote := fun _ => .ok [demoTrack1965]
  getYear := fun s => if s = "1965-01-01" then some 1965 else none
  dateDisplay := fun _ => "01.01.1965"
  lc := fun _ _ => 0
  fmtPop := fun _ => ""

/-- The album candidate derived from `demoTrack1965`. -/
def demoCand1965 : AlbumCandidate :=
  { trackName := "a", albumName := "Old Album", releaseDate := "01.01.1965",
    releaseYear := 1965, albumType := "Album", trackArtists := "b",
    albumId := "alb1", trackId := "tid1" }

/-- Sample playlist search response items for the C6 witness. -/
def demoPlaylistItems : List (Option PlaylistObj) :=
  [some { name := some "Road Trip", owner := some { id := some "alice" } },
   some { name := some "road trip", owner := some { id := some "BOB" } },
   some { name := some "Road Trips", owner := some { id := some "bob" } },
   none]

/-- A minimal track whose duration is the spec's 233000 ms example. -/
def demoTrack233 : SpTrack :=
  { id := none, name := none, artists := none, album := none,
    duration_ms := some 233000, popularity := none }

/-- The regex `<pre>X+` (for a literal `pre` and character class `X` given by
`p`) matches somewhere in `l`. -/
def patternOccurs (pre : List Char) (p : Char → Bool) (l : List Char) : Prop :=
  ∃ l₁ c cs, l = l₁ ++ pre ++ (c :: cs) ∧ p c = true

/-! ## Theorems -/

/-- The original four columns survive `createEnhancedRecord` untouched. -/
theorem restrictRecord_createEnhancedRecord (r : InputRecord) (a : Option AlbumCandidate) :
    restrictRecord (createEnhancedRecord r a) = r := rfl

/-- Per-row processing emits an enrichment of the row (original columns kept). -/
theorem restrictRecord_processTrackRecord (env : Env) (r : InputRecord) :
    restrictRecord (processTrackRecord env r).1 = r := by
  unfold processTrackRecord
  split
  · rfl
  · rcases hy : jsParseInt r.releaseYear with _ | y
    · simp [hy, restrictRecord_createEnhancedRecord]
    · rcases he : findEarliestAlbumBeforeYear env r.trackName r.artistName y with e | a <;>
        simp [hy, he, restrictRecord_createEnhancedRecord]

/-- C1: for every environment (including one whose remote lookup throws) and
every input record list, batch enrichment emits exactly one output row per
input row, in the same order, and the four original columns `Track Name`,
`Artist Name`, `Release Year`, `Spotify Track ID` of each output row equal
those of the corresponding input row. -/
theorem processAllRecords_preserves_rows (env : Env) (records : List InputRecord) :
    (processAllRecords env records).length = records.length ∧
    (processAllRecords env records).map restrictRecord = records := by
  refine ⟨by simp [processAllRecords], ?_⟩
  induction records with
  | nil => rfl
  | cons r rs ih =>
    simpa [processAllRecords, restrictRecord_processTrackRecord env r] using ih

/-- C5: per-row processing terminates in exactly one step with an enriched
record; a row with a JS-falsy track or artist name or an unparsable year is
emitted with empty new fields and issues no remote call; a thrown remote
error is caught and downgraded to the empty enrichment for that row alone. -/
theorem processTrackRecord_spec (env : Env) (record : InputRecord) :
    (∃ a, (processTrackRecord env record).1 = createEnhancedRecord record a) ∧
    (record.trackName = "" ∨ record.artistName = "" ∨ jsParseInt record.releaseYear = none →
      processTrackRecord env record = (createEnhancedRecord record none, 0)) ∧
    (∀ y e, jsParseInt record.releaseYear = some y →
      findEarliestAlbumBeforeYear env record.trackName record.artistName y = .error e →
      record.trackName ≠ "" → record.artistName ≠ "" →
      processTrackRecord env record = (createEnhancedRecord record none, 1)) := by
  refine ⟨?_, ?_, ?_⟩
  · unfold processTrackRecord
    split
    · exact ⟨none, rfl⟩
    · rcases hy : jsParseInt record.releaseYear with _ | y
      · exact ⟨none, by simp [hy]⟩
      · rcases he : findEarliestAlbumBeforeYear env record.trackName record.artistName y with e | a
        · exact ⟨none, by simp [hy, he]⟩
        · exact ⟨a, by simp [hy, he]⟩
  · intro h
    unfold processTrackRecord
    split
    · rfl
    · rename_i hval
      rcases hy : jsParseInt record.releaseYear with _ | y
      · simp [hy]
      · rcases h with h | h | h
        · exact absurd (Or.inl h) hval
        · exact absurd (Or.inr h) hval
        · rw [hy] at h; exact absurd h (by simp)
  · intro y e hy herr htn han
    unfold processTrackRecord
    split
    · rename_i hval
      rcases hval with h | h
      · exact absurd h htn
      · exact absurd h han
    · simp [hy, herr]

/-- Witness for C5: a row with an empty track name is emitted empty with no
remote call, and a row whose remote search throws is emitted empty after its
single remote call. -/
theorem processTrackRecord_spec_witness :
    processTrackRecord stubEnv ⟨"", "The Beatles", "1970", "abc123"⟩ =
      (createEnhancedRecord ⟨"", "The Beatles", "1970", "abc123"⟩ none, 0) ∧
    processTrackRecord stubEnv ⟨"Yesterday", "The Beatles", "1970", "abc123"⟩ =
      (createEnhancedRecord ⟨"Yesterday", "The Beatles", "1970", "abc123"⟩ none, 1) := by
  constructor
  · exact (processTrackRecord_spec stubEnv _).2.1 (Or.inl rfl)
  · exact (processTrackRecord_spec stubEnv _).2.2 1970 "boom" (by decide) rfl
      (by decide) (by decide)

/-- C2 (code bug): on the failing input `[""]` — a single structurally
invalid ID — `addTracksToPlaylist` takes its early-return branch and counts
the invalid ID both as `failed` and as `skipped`: the counters sum to 2 over
a 1-element input, violating `successful + failed + skipped == len(ids)`. -/
theorem addTracksToPlaylist_all_invalid_double_counts :
    addTracksToPlaylist (fun _ => true) [TrackIdValue.str ""] =
      { successful := 0, failed := 1, skipped := 1 } ∧
    0 + 1 + 1 ≠ [TrackIdValue.str ""].length := by
  constructor
  · rfl
  · decide

/-- Transitivity of the sort comparator, given a transitive `localeCompare`. -/
theorem albumLe_trans (lc : String → String → Int)
    (hltrans : ∀ a b c, lc a b ≤ 0 → lc b c ≤ 0 → lc a c ≤ 0) :
    ∀ a b c, albumLe lc a b = true → albumLe lc b c = true → albumLe lc a c = true := by
  intro a b c hab hbc
  simp only [albumLe] at hab hbc ⊢
  split_ifs at hab hbc ⊢ with h1 h2 h3 <;>
    simp only [decide_eq_true_eq] at hab hbc ⊢ <;>
    first
      | exact hltrans _ _ _ hab hbc
      | omega

/-- Totality of the sort comparator, given a total `localeCompare`. -/
theorem albumLe_total (lc : String → String → Int)
    (hltotal : ∀ a b, lc a b ≤ 0 ∨ lc b a ≤ 0) :
    ∀ a b, (albumLe lc a b || albumLe lc b a) = true := by
  intro a b
  by_cases h : a.releaseYear = b.releaseYear
  · simpa [albumLe, h] using hltotal a.albumName b.albumName
  · simp only [albumLe, if_neg h, if_neg (Ne.symm h), Bool.or_eq_true, decide_eq_true_eq]
    omega

/-- C4: for every consistent `localeCompare` (transitive and total on
"precedes or equals", with a symmetric tie), the sort output is a permutation
of the input, every earlier element has a strictly smaller release year or an
equal year and a name that precedes or equals the later one under the
comparison, and elements with equal sort key (equal year, comparison 0) keep
their input order. -/
theorem sortAlbumsByReleaseYear_spec (lc : String → String → Int)
    (hltrans : ∀ a b c, lc a b ≤ 0 → lc b c ≤ 0 → lc a c ≤ 0)
    (hltotal : ∀ a b, lc a b ≤ 0 ∨ lc b a ≤ 0)
    (hlzero : ∀ a b, lc a b = 0 → lc b a = 0)
    (l : List AlbumCandidate) :
    (sortAlbumsByReleaseYear lc l).Perm l ∧
    (sortAlbumsByReleaseYear lc l).Pairwise (fun a b =>
      a.releaseYear < b.releaseYear ∨
      (a.releaseYear = b.releaseYear ∧ lc a.albumName b.albumName ≤ 0)) ∧
    ∀ x : AlbumCandidate,
      (sortAlbumsByReleaseYear lc l).filter (fun a =>
        decide (a.releaseYear = x.releaseYear) && decide (lc a.albumName x.albumName = 0)) =
      l.filter (fun a =>
        decide (a.releaseYear = x.releaseYear) && decide (lc a.albumName x.albumName = 0)) := by
  refine ⟨List.mergeSort_perm l (albumLe lc), ?_, ?_⟩
  · have hs := List.sorted_mergeSort (albumLe_trans lc hltrans) (albumLe_total lc hltotal) l
    refine hs.imp ?_
    intro a b h
    simp only [albumLe] at h
    split_ifs at h with h1
    · exact Or.inr ⟨h1, by simpa using h⟩
    · exact Or.inl (by simpa using h)
  · intro x
    have hmutual : ∀ a b : AlbumCandidate,
        (decide (a.releaseYear = x.releaseYear) && decide (lc a.albumName x.albumName = 0)) = true →
        (decide (b.releaseYear = x.releaseYear) && decide (lc b.albumName x.albumName = 0)) = true →
        albumLe lc a b = true := by
      intro a b ha hb
      simp only [Bool.and_eq_true, decide_eq_true_eq] at ha hb
      simp only [albumLe, if_pos (ha.1.trans hb.1.symm), decide_eq_true_eq]
      exact hltrans _ _ _ (le_of_eq ha.2) (le_of_eq (hlzero _ _ hb.2))
    have hsub : List.Sublist
        (l.filter (fun a =>
          decide (a.releaseYear = x.releaseYear) && decide (lc a.albumName x.albumName = 0)))
        (sortAlbumsByReleaseYear lc l) := by
      apply List.sublist_mergeSort (albumLe_trans lc hltrans) (albumLe_total lc hltotal)
      · exact List.pairwise_of_forall_mem_list (fun a ha b hb =>
          hmutual a b (List.mem_filter.mp ha).2 (List.mem_filter.mp hb).2)
      · exact List.filter_sublist l
    have hsub2 : List.Sublist
        (l.filter (fun a =>
          decide (a.releaseYear = x.releaseYear) && decide (lc a.albumName x.albumName = 0)))
        ((sortAlbumsByReleaseYear lc l).filter (fun a =>
          decide (a.releaseYear = x.releaseYear) && decide (lc a.albumName x.albumName = 0))) := by
      have h2 := List.Sublist.filter (fun a =>
        decide (a.releaseYear = x.releaseYear) && decide (lc a.albumName x.albumName = 0)) hsub
      rwa [List.filter_eq_self.mpr (fun a ha => (List.mem_filter.mp ha).2)] at h2
    have hlen := (List.Perm.filter (fun a =>
        decide (a.releaseYear = x.releaseYear) && decide (lc a.albumName x.albumName = 0))
      (List.mergeSort_perm l (albumLe lc))).length_eq
    exact (hsub2.eq_of_length hlen.symm).symm

theorem lcCodePoint_le_zero (a b : String) : lcCodePoint a b ≤ 0 ↔ a ≤ b := by
  unfold lcCodePoint
  split_ifs with h1 h2
  · exact iff_of_true (by decide) h1.le
  · exact iff_of_false (by decide) (not_le.mpr h2)
  · exact iff_of_true (by decide) (not_lt.mp h2)

theorem lcCodePoint_eq_zero (a b : String) : lcCodePoint a b = 0 ↔ a = b := by
  unfold lcCodePoint
  split_ifs with h1 h2
  · exact iff_of_false (by decide) (ne_of_lt h1)
  · exact iff_of_false (by decide) (ne_of_gt h2)
  · exact iff_of_true rfl (le_antisymm (not_lt.mp h2) (not_lt.mp h1))

/-- Witness for C4: the sort contract instantiated at a concrete consistent
comparator and a concrete candidate list. -/
theorem sortAlbumsByReleaseYear_spec_witness :
    (sortAlbumsByReleaseYear lcCodePoint demoAlbums).Perm demoAlbums ∧
    (sortAlbumsByReleaseYear lcCodePoint demoAlbums).Pairwise (fun a b =>
      a.releaseYear < b.releaseYear ∨
      (a.releaseYear = b.releaseYear ∧ lcCodePoint a.albumName b.albumName ≤ 0)) ∧
    ∀ x : AlbumCandidate,
      (sortAlbumsByReleaseYear lcCodePoint demoAlbums).filter (fun a =>
        decide (a.releaseYear = x.releaseYear) &&
        decide (lcCodePoint a.albumName x.albumName = 0)) =
      demoAlbums.filter (fun a =>
        decide (a.releaseYear = x.releaseYear) &&
        decide (lcCodePoint a.albumName x.albumName = 0)) :=
  sortAlbumsByReleaseYear_spec lcCodePoint
    (fun a b c hab hbc => (lcCodePoint_le_zero a c).mpr
      (le_trans ((lcCodePoint_le_zero a b).mp hab) ((lcCodePoint_le_zero b c).mp hbc)))
    (fun a b => by
      rcases le_total a b with h | h
      · exact Or.inl ((lcCodePoint_le_zero a b).mpr h)
      · exact Or.inr ((lcCodePoint_le_zero b a).mpr h))
    (fun a b h => (lcCodePoint_eq_zero b a).mpr ((lcCodePoint_eq_zero a b).mp h).symm)
    demoAlbums

/-- C3 (amended): for every environment and every nonzero `beforeYear` (JS
truthiness keeps the year filter active exactly for nonzero years), a
candidate returned by `findEarliestAlbumBeforeYear` has
`0 < releaseYear < beforeYear` and regular-album type, and is the head of
the sorted, filtered candidate list. -/
theorem findEarliestAlbumBeforeYear_spec (env : Env) (trackName artistName : String)
    (beforeYear : Int) (hy : beforeYear ≠ 0) (cand : AlbumCandidate)
    (h : findEarliestAlbumBeforeYear env trackName artistName beforeYear =
      .ok (some cand)) :
    0 < cand.releaseYear ∧ cand.releaseYear < beforeYear ∧
    lowerStr cand.albumType = "album" ∧
    ∃ albumInfo,
      getTrackAlbumInformation env trackName artistName (some "album") (some beforeYear) =
        .ok albumInfo ∧ albumInfo.head? = some cand := by
  unfold findEarliestAlbumBeforeYear at h
  rcases hg : getTrackAlbumInformation env trackName artistName (some "album") (some beforeYear)
    with e | albumInfo
  · rw [hg] at h; exact absurd h (by simp)
  · rw [hg] at h
    simp only [Except.ok.injEq] at h
    have hmem : cand ∈ albumInfo := List.mem_of_mem_head? (by rw [h]; rfl)
    have hg0 := hg
    unfold getTrackAlbumInformation at hg
    rcases hs : searchTracksByNameAndArtist env trackName artistName with e | tracks
    · rw [hs] at hg; exact absurd hg (by simp)
    · rw [hs] at hg
      simp only [Except.ok.injEq] at hg
      have htruthyT : jsTruthyStr (some "album") = true := by decide
      have htruthyY : jsTruthyInt (some beforeYear) = true := by
        simp [jsTruthyInt, hy]
      rw [htruthyT, htruthyY] at hg
      simp only [if_pos rfl] at hg
      rw [← hg] at hmem
      have hmem2 := (List.mem_mergeSort).mp hmem
      have hyear := (List.mem_filter.mp hmem2).2
      have hmem3 := (List.mem_filter.mp hmem2).1
      have htype := (List.mem_filter.mp hmem3).2
      simp only [Bool.and_eq_true, decide_eq_true_eq] at hyear
      refine ⟨hyear.1, hyear.2, ?_, albumInfo, rfl, h⟩
      have h1 : lowerStr cand.albumType = lowerStr ((some "album").getD "" : String) :=
        by simpa using htype
      exact h1.trans (by decide)

/-- Counterexample for C3 as stated: at `givenYear = 0` (JS-falsy, so the
before-year filter is skipped) the search returns a candidate whose release
year `1965` is `≥ givenYear`. -/
theorem findEarliestAlbumBeforeYear_zero_counterexample :
    findEarliestAlbumBeforeYear demoEnv "a" "b" 0 = .ok (some demoCand1965) ∧
    demoCand1965.releaseYear ≥ 0 := by
  constructor
  · simp +decide [findEarliestAlbumBeforeYear, getTrackAlbumInformation,
      searchTracksByNameAndArtist, demoEnv, demoTrack1965, trackMatches, containsCI,
      listContains, formatAlbumInformation, formatAlbumInfo, jsOrStr, jsTruthyStr,
      jsTruthyInt, capitalizeFirst, joinArtistNames, sortAlbumsByReleaseYear,
      List.mergeSort, demoCand1965]
  · decide

/-- Witness for C3: at `beforeYear = 1970` the returned 1965 regular album
satisfies all the amended claim's conclusions. -/
theorem findEarliestAlbumBeforeYear_spec_witness :
    0 < demoCand1965.releaseYear ∧ demoCand1965.releaseYear < 1970 ∧
    lowerStr demoCand1965.albumType = "album" ∧
    ∃ albumInfo,
      getTrackAlbumInformation demoEnv "a" "b" (some "album") (some 1970) =
        .ok albumInfo ∧ albumInfo.head? = some demoCand1965 :=
  findEarliestAlbumBeforeYear_spec demoEnv "a" "b" 1970 (by decide) demoCand1965 (by
    simp +decide [findEarliestAlbumBeforeYear, getTrackAlbumInformation,
      searchTracksByNameAndArtist, demoEnv, demoTrack1965, trackMatches, containsCI,
      listContains, formatAlbumInformation, formatAlbumInfo, jsOrStr, jsTruthyStr,
      jsTruthyInt, capitalizeFirst, joinArtistNames, sortAlbumsByReleaseYear,
      List.mergeSort, demoCand1965])

/-- An element of the exact-name matches satisfies the name filter. -/
theorem mem_nameFilter (items : List (Option PlaylistObj)) (playlistName : String)
    (p : PlaylistObj)
    (hp : p ∈ items.filterMap (fun itm =>
      match itm with
      | some q => if playlistNameMatches playlistName q then some q else none
      | none => none)) :
    playlistNameMatches playlistName p = true := by
  rcases List.mem_filterMap.mp hp with ⟨itm, _, hf⟩
  rcases itm with _ | q
  · simp at hf
  · by_cases hc : playlistNameMatches playlistName q = true
    · simp only [hc, if_true, Option.some.injEq] at hf
      exact hf ▸ hc
    · simp [hc] at hf

/-- C6: every playlist returned by the name search has a name whose
lower-casing equals the lower-cased query (exact match, never substring),
and when a (JS-truthy) owner is supplied its owner id lower-cased equals the
lower-cased owner. -/
theorem searchPlaylistsByName_exact (items : List (Option PlaylistObj))
    (playlistName : String) (owner : Option String) (p : PlaylistObj)
    (hp : p ∈ searchPlaylistsByName items playlistName owner) :
    (∃ n, p.name = some n ∧ lowerStr n = lowerStr playlistName) ∧
    (∀ o, owner = some o → o ≠ "" →
      ∃ ow oid, p.owner = some ow ∧ ow.id = some oid ∧ lowerStr oid = lowerStr o) := by
  unfold searchPlaylistsByName at hp
  by_cases ho : jsTruthyStr owner = true
  · rw [if_pos ho] at hp
    have hname := mem_nameFilter items playlistName p (List.mem_filter.mp hp).1
    have hown := (List.mem_filter.mp hp).2
    constructor
    · rcases hn : p.name with _ | n
      · rw [playlistNameMatches, hn] at hname; exact absurd hname (by simp)
      · refine ⟨n, rfl, ?_⟩
        rw [playlistNameMatches, hn] at hname
        simp only [Bool.and_eq_true, beq_iff_eq] at hname
        exact hname.2
    · intro o hoeq _
      subst hoeq
      rcases hw : p.owner with _ | ow
      · rw [playlistOwnerMatches, hw] at hown; exact absurd hown (by simp)
      · rw [playlistOwnerMatches, hw] at hown
        simp only at hown
        rcases hid : ow.id with _ | oid
        · rw [hid] at hown; exact absurd hown (by simp)
        · rw [hid] at hown
          simp only [Bool.and_eq_true, beq_iff_eq, Option.getD_some] at hown
          exact ⟨ow, oid, rfl, hid, hown.2⟩
  · rw [if_neg ho] at hp
    have hname := mem_nameFilter items playlistName p hp
    constructor
    · rcases hn : p.name with _ | n
      · rw [playlistNameMatches, hn] at hname; exact absurd hname (by simp)
      · refine ⟨n, rfl, ?_⟩
        rw [playlistNameMatches, hn] at hname
        simp only [Bool.and_eq_true, beq_iff_eq] at hname
        exact hname.2
    · intro o hoeq hne
      subst hoeq
      exact absurd (by simpa [jsTruthyStr] using ho) hne

/-- Witness for C6: searching `"ROAD TRIP"` with owner `"Bob"` returns a
playlist, and that playlist's name and owner match the query exactly up to
case; the substring match `"Road Trips"` is excluded. -/
theorem searchPlaylistsByName_exact_witness :
    ((∃ n, (PlaylistObj.mk (some "road trip") (some ⟨some "BOB"⟩)).name = some n ∧
        lowerStr n = lowerStr "ROAD TRIP") ∧
      (∀ o, (some "Bob" : Option String) = some o → o ≠ "" →
        ∃ ow oid, (PlaylistObj.mk (some "road trip") (some ⟨some "BOB"⟩)).owner = some ow ∧
          ow.id = some oid ∧ lowerStr oid = lowerStr o)) ∧
    searchPlaylistsByName demoPlaylistItems "ROAD TRIP" (some "Bob") =
      [{ name := some "road trip", owner := some { id := some "BOB" } }] :=
  ⟨searchPlaylistsByName_exact demoPlaylistItems "ROAD TRIP" (some "Bob")
      { name := some "road trip", owner := some { id := some "BOB" } } (by decide),
    by decide⟩

/-- C7: when the first page reports `total = 120`, the collector issues
exactly the three page requests at offsets 0, 50, 100, and emits the
concatenation of the per-page valid tracks in fetch order. -/
theorem getPlaylistTracks_total120 (fetchPage : Nat → TracksPage)
    (h : (fetchPage 0).total = 120) :
    (getPlaylistTracks fetchPage).2 = [0, 50, 100] ∧
    (getPlaylistTracks fetchPage).1 =
      pageValidTracks (fetchPage 0) ++ pageValidTracks (fetchPage 50) ++
        pageValidTracks (fetchPage 100) := by
  constructor <;>
    simp [getPlaylistTracks, h, collectRemainingPages]

/-- Witness for C7: a fetcher whose every response reports `total = 120`. -/
theorem getPlaylistTracks_total120_witness :
    (getPlaylistTracks (fun _ => TracksPage.mk 120 [])).2 = [0, 50, 100] ∧
    (getPlaylistTracks (fun _ => TracksPage.mk 120 [])).1 =
      pageValidTracks (TracksPage.mk 120 []) ++ pageValidTracks (TracksPage.mk 120 []) ++
        pageValidTracks (TracksPage.mk 120 []) :=
  getPlaylistTracks_total120 (fun _ => TracksPage.mk 120 []) rfl

/-- A name produced by the numbered-name loop never collides with an
existing file. -/
theorem uniqueNameLoop_not_mem (existing : List String) (base ext : String) :
    ∀ fuel counter f, uniqueNameLoop existing base ext fuel counter = some f →
      f ∉ existing := by
  intro fuel
  induction fuel with
  | zero => intro counter f h; simp [uniqueNameLoop] at h
  | succ n ih =>
    intro counter f h
    simp only [uniqueNameLoop] at h
    split_ifs at h with hc
    · exact ih (counter + 1) f h
    · simp only [Option.some.injEq] at h
      exact h ▸ hc

/-- C8 (amended): with the sanitized name `"My_Playlist.csv"` already
present, exporting the playlist `"My Playlist"` again yields
`"My_Playlist_1.csv"`; and in general a generated filename is never the name
of an existing file. -/
theorem generateUniqueFilename_spec :
    generateUniqueFilename ["My_Playlist.csv"] "My Playlist" ".csv" =
      some "My_Playlist_1.csv" ∧
    ∀ existing baseFilename ext f,
      generateUniqueFilename existing baseFilename ext = some f → f ∉ existing := by
  refine ⟨by decide, ?_⟩
  intro existing baseFilename ext f h
  unfold generateUniqueFilename at h
  dsimp only at h
  split_ifs at h with hc
  · exact uniqueNameLoop_not_mem existing (sanitizeFilename baseFilename) ext _ 1 f h
  · simp only [Option.some.injEq] at h
    exact h ▸ hc

/-- Witness for C8: the no-overwrite guarantee applied at the concrete
collision scenario. -/
theorem generateUniqueFilename_spec_witness :
    ("My_Playlist_1.csv" : String) ∉ ["My_Playlist.csv"] :=
  generateUniqueFilename_spec.2 ["My_Playlist.csv"] "My Playlist" ".csv"
    "My_Playlist_1.csv" (by decide)

/-- Counterexample for C8 as stated: with the unsanitized `"My Playlist.csv"`
present, the sanitize-then-check order produces the distinct fresh name
`"My_Playlist.csv"` — no collision is detected, so the result is not
`"My_Playlist_1.csv"` (nor any numbered name). -/
theorem generateUniqueFilename_unsanitized_counterexample :
    generateUniqueFilename ["My Playlist.csv"] "My Playlist" ".csv" =
      some "My_Playlist.csv" ∧
    ("My_Playlist.csv" : String) ≠ "My_Playlist_1.csv" := by
  exact ⟨by decide, by decide⟩

/-- C10 (amended): for every track whose `duration_ms` is present and
nonzero (JS-truthy), the export row's `Track Duration` is rendered as
`minutes:seconds` of `⌊ms/1000⌋` with seconds zero-padded to two digits;
233000 ms renders as `"3:53"`. -/
theorem formatTracksForCsv_duration_spec (env : Env) (track : SpTrack) (ms : Nat)
    (hms : track.duration_ms = some ms) (hnz : ms ≠ 0) :
    (formatTracksForCsv env [track]).map (fun r => r.trackDuration) =
      [specDurationMinSec ms] ∧
    specDurationMinSec 233000 = "3:53" := by
  refine ⟨?_, by decide⟩
  simp [formatTracksForCsv, formatTrackForCsv, hms, hnz, specDurationMinSec]

/-- Witness for C10: the 233000 ms track renders as `"3:53"`. -/
theorem formatTracksForCsv_duration_spec_witness :
    (formatTracksForCsv stubEnv [demoTrack233]).map (fun r => r.trackDuration) =
      [specDurationMinSec 233000] ∧
    specDurationMinSec 233000 = "3:53" :=
  formatTracksForCsv_duration_spec stubEnv demoTrack233 233000 rfl (by decide)

/-- Counterexample for C10 as stated: a present duration of 0 ms is JS-falsy,
so the code renders the empty string, not the `"0:00"` the per-track formula
demands. -/
theorem formatTracksForCsv_zero_duration_counterexample :
    (formatTracksForCsv stubEnv
        [{ id := none, name := none, artists := none, album := none,
           duration_ms := some 0, popularity := none }]).map (fun r => r.trackDuration) =
      [""] ∧
    specDurationMinSec 0 = "0:00" ∧ ("" : String) ≠ "0:00" := by
  exact ⟨by decide, by decide, by decide⟩

/-- `List.isPrefixOf` characterised by a decomposition. -/
theorem isPrefixOf_eq_true_iff (l₁ l₂ : List Char) :
    l₁.isPrefixOf l₂ = true ↔ ∃ t, l₂ = l₁ ++ t := by
  induction l₁ generalizing l₂ with
  | nil => simp [List.isPrefixOf]
  | cons a as ih =>
    cases l₂ with
    | nil => simp [List.isPrefixOf]
    | cons b bs =>
      simp only [List.isPrefixOf, Bool.and_eq_true, beq_iff_eq, ih, List.cons_append,
        List.cons.injEq]
      constructor
      · rintro ⟨hab, t, ht⟩
        exact ⟨t, hab.symm, ht⟩
      · rintro ⟨t, hb, hbs⟩
        exact ⟨hb.symm, t, hbs⟩

/-- The scan of `scanCapture` succeeds exactly when the regex pattern occurs
in the scanned list. -/
theorem scanCapture_isSome_iff (pre : List Char) (p : Char → Bool) :
    ∀ l : List Char, (scanCapture pre p l).isSome = true ↔ patternOccurs pre p l := by
  intro l
  induction l with
  | nil =>
    simp only [scanCapture, Option.isSome_none, Bool.false_eq_true, false_iff]
    rintro ⟨l₁, c, cs, hl, _⟩
    have := congrArg List.length hl
    simp at this
    omega
  | cons a rest ih =>
    rw [scanCapture]
    by_cases hpre : pre.isPrefixOf (a :: rest) = true
    · rw [if_pos hpre]
      rcases (isPrefixOf_eq_true_iff pre (a :: rest)).mp hpre with ⟨t, ht⟩
      have hdrop : (a :: rest).drop pre.length = t := by
        rw [ht, List.drop_left]
      rw [hdrop]
      cases t with
      | nil =>
        rw [ih]
        constructor
        · rintro ⟨l₁, c, cs, hrest, hc⟩
          exact ⟨a :: l₁, c, cs, by simp [hrest], hc⟩
        · rintro ⟨l₁, c, cs, hl, hc⟩
          exfalso
          rw [hl] at ht
          have h1 := congrArg List.length ht
          simp at h1
          omega
      | cons b t' =>
        dsimp only
        by_cases hb : p b = true
        · rw [if_pos hb]
          simp only [Option.isSome_some, true_iff]
          exact ⟨[], b, t', by simpa using ht, hb⟩
        · rw [if_neg hb, ih]
          constructor
          · rintro ⟨l₁, c, cs, hrest, hc⟩
            exact ⟨a :: l₁, c, cs, by simp [hrest], hc⟩
          · rintro ⟨l₁, c, cs, hl, hc⟩
            cases l₁ with
            | nil =>
              simp only [List.nil_append] at hl
              rw [ht] at hl
              have h2 := List.append_cancel_left hl
              simp only [List.cons.injEq] at h2
              exact absurd (h2.1 ▸ hb) (by simp [hc])
            | cons x l₁' =>
              simp only [List.cons_append, List.cons.injEq] at hl
              exact ⟨l₁', c, cs, hl.2, hc⟩
    · rw [if_neg hpre, ih]
      constructor
      · rintro ⟨l₁, c, cs, hrest, hc⟩
        exact ⟨a :: l₁, c, cs, by simp [hrest], hc⟩
      · rintro ⟨l₁, c, cs, hl, hc⟩
        cases l₁ with
        | nil =>
          simp only [List.nil_append] at hl
          exact absurd ((isPrefixOf_eq_true_iff pre (a :: rest)).mpr ⟨c :: cs, hl⟩) hpre
        | cons x l₁' =>
          simp only [List.cons_append, List.cons.injEq] at hl
          exact ⟨l₁', c, cs, hl.2, hc⟩

/-- C9: the web-link and URI forms resolve to the embedded ID (for every
nonempty alphanumeric ID), any URL in which neither regex pattern occurs
fails with the invalid-URL error, and the spec's two concrete scenarios
behave as stated. -/
theorem extractPlaylistIdFromUrl_spec :
    (∀ id : String, id ≠ "" → (∀ c ∈ id.data, isIdChar c = true) →
      extractPlaylistIdFromUrl ("https://open.spotify.com/playlist/" ++ id) = .ok id ∧
      extractPlaylistIdFromUrl ("spotify:playlist:" ++ id) = .ok id) ∧
    (∀ url : String, ¬ patternOccurs httpPattern isIdChar url.data →
      ¬ patternOccurs uriPattern isIdChar url.data →
      extractPlaylistIdFromUrl url = .error invalidUrlMessage) ∧
    extractPlaylistIdFromUrl "https://open.spotify.com/playlist/37i9dQZF1DXcBWIGoYBM5M" =
      .ok "37i9dQZF1DXcBWIGoYBM5M" ∧
    extractPlaylistIdFromUrl "not-a-url" = .error invalidUrlMessage := by
  refine ⟨?_, ?_, rfl, rfl⟩
  · intro id hne hall
    rcases id with ⟨data⟩
    cases data with
    | nil => exact absurd rfl hne
    | cons a as =>
      have ha : isIdChar a = true := hall a (by simp)
      have has : as.takeWhile isIdChar = as :=
        List.takeWhile_eq_self_iff.mpr (fun c hc => hall c (by simp [hc]))
      constructor
      · have hd : ("https://open.spotify.com/playlist/" ++ String.mk (a :: as)).data =
            'h' :: 't' :: 't' :: 'p' :: 's' :: ':' :: '/' :: '/' :: 'o' :: 'p' :: 'e' :: 'n' ::
            '.' :: 's' :: 'p' :: 'o' :: 't' :: 'i' :: 'f' :: 'y' :: '.' :: 'c' :: 'o' :: 'm' ::
            '/' :: 'p' :: 'l' :: 'a' :: 'y' :: 'l' :: 'i' :: 's' :: 't' :: '/' :: a :: as := by
          rw [String.data_append]; rfl
        unfold extractPlaylistIdFromUrl
        rw [hd]
        simp [scanCapture, httpPattern, List.isPrefixOf, ha, has]
      · have hd : ("spotify:playlist:" ++ String.mk (a :: as)).data =
            's' :: 'p' :: 'o' :: 't' :: 'i' :: 'f' :: 'y' :: ':' :: 'p' :: 'l' :: 'a' :: 'y' ::
            'l' :: 'i' :: 's' :: 't' :: ':' :: a :: as := by
          rw [String.data_append]; rfl
        have hnone : scanCapture httpPattern isIdChar
            ("spotify:playlist:" ++ String.mk (a :: as)).data = none := by
          rcases ho : scanCapture httpPattern isIdChar
              ("spotify:playlist:" ++ String.mk (a :: as)).data with _ | cap
          · rfl
          · exfalso
            have hsome : (scanCapture httpPattern isIdChar
                ("spotify:playlist:" ++ String.mk (a :: as)).data).isSome = true := by
              rw [ho]; rfl
            rcases (scanCapture_isSome_iff httpPattern isIdChar _).mp hsome with
              ⟨l₁, c, cs, hl, _⟩
            have hdot : ('.' : Char) ∈ ("spotify:playlist:" ++ String.mk (a :: as)).data := by
              rw [hl]
              have hm : ('.' : Char) ∈ httpPattern := by decide
              simp only [List.append_assoc, List.mem_append]
              exact Or.inr (Or.inl hm)
            rw [hd] at hdot
            have : ('.' : Char) ∈ (a :: as) := by
              simpa using hdot
            exact absurd (hall '.' this) (by decide)
        unfold extractPlaylistIdFromUrl
        rw [hnone, hd]
        simp [scanCapture, uriPattern, List.isPrefixOf, ha, has]
  · intro url hno1 hno2
    unfold extractPlaylistIdFromUrl
    rcases h1 : scanCapture httpPattern isIdChar url.data with _ | cap1
    · rcases h2 : scanCapture uriPattern isIdChar url.data with _ | cap2
      · rfl
      · exact absurd ((scanCapture_isSome_iff uriPattern isIdChar url.data).mp
          (by rw [h2]; rfl)) hno2
    · exact absurd ((scanCapture_isSome_iff httpPattern isIdChar url.data).mp
        (by rw [h1]; rfl)) hno1

/-- Witness for C9: the ID `"abc123"` embedded in both URL forms is
extracted, and `"not-a-url"` (in which neither pattern occurs) fails. -/
theorem extractPlaylistIdFromUrl_spec_witness :
    (extractPlaylistIdFromUrl ("https://open.spotify.com/playlist/" ++ "abc123") =
        .ok "abc123" ∧
      extractPlaylistIdFromUrl ("spotify:playlist:" ++ "abc123") = .ok "abc123") ∧
    extractPlaylistIdFromUrl "not-a-url" = .error invalidUrlMessage :=
  ⟨extractPlaylistIdFromUrl_spec.1 "abc123" (by decide) (by decide),
    extractPlaylistIdFromUrl_spec.2.1 "not-a-url"
      (fun hocc => by
        have := (scanCapture_isSome_iff httpPattern isIdChar "not-a-url".data).mpr hocc
        rw [show scanCapture httpPattern isIdChar "not-a-url".data = none from by decide]
          at this
        exact absurd this (by decide))
      (fun hocc => by
        have := (scanCapture_isSome_iff uriPattern isIdChar "not-a-url".data).mpr hocc
        rw [show scanCapture uriPattern isIdChar "not-a-url".data = none from by decide]
          at this
        exact absurd this (by decide))⟩

end SpotifySuite
